import Mathlib

/-!
Shallow embedding of `scoundrel_text.py`, a single-player card-dungeon game
(Scoundrel variant).  Python lists become Lean `List`s (front of the deck is
the head), `None` becomes `Option.none`, python `int` health becomes `Int`,
and the card `value` string becomes the `Rank` enumeration (the source only
ever builds cards whose value string is one of 2..10, J, Q, K, Ace).
`random.shuffle` is modelled by an injected function `sh : List Card → List Card`
about which theorems assume only that it permutes its input.  Console input
(the skip answer and the three card choices) is modelled by explicit
parameters; the inner retry loop that rejects an out-of-bounds index is
modelled by returning `none` when a supplied choice is out of bounds.
-/

/-- Suit of a playing card. -/
inductive Suit
  | Hearts | Diamonds | Spades | Clubs
deriving DecidableEq, Fintype

/-- Rank of a playing card: the source stores the strings 2..10, J, Q, K, Ace. -/
inductive Rank
  | two | three | four | five | six | seven | eight | nine | ten
  | J | Q | K | Ace
deriving DecidableEq, Fintype

/-- A single playing card with a value and suit (class `Card` in the source). -/
structure Card where
  value : Rank
  suit : Suit
deriving DecidableEq, Fintype

/-- `Card.numeric_value`: digit strings map to their number via `int(...)`,
face cards via the dict `{J:11, Q:12, K:13, Ace:14}`. -/
def Card.numeric_value (c : Card) : Nat :=
  match c.value with
  | .two => 2 | .three => 3 | .four => 4 | .five => 5 | .six => 6
  | .seven => 7 | .eight => 8 | .nine => 9 | .ten => 10
  | .J => 11 | .Q => 12 | .K => 13 | .Ace => 14

/-- The player: health, current weapon, and monsters slain with it
(class `Player.__init__` starts at health 20, no weapon, empty ladder). -/
structure Player where
  health : Int
  weapon : Option Card
  slain_monsters : List Card
deriving DecidableEq

/-- `Player.__init__`. -/
def Player.init : Player := ⟨20, none, []⟩

/-- `Player.equip_weapon(new_weapon, discard_pile)`: if a weapon is held,
extend the discard pile with `[weapon] + slain_monsters`; then set the new
weapon and clear the ladder.  Returns the updated player and discard pile
(the source mutates the shared list in place). -/
def Player.equip_weapon (p : Player) (new_weapon : Card) (discard_pile : List Card) :
    Player × List Card :=
  let discard_pile :=
    match p.weapon with
    | some w => discard_pile ++ (w :: p.slain_monsters)
    | none => discard_pile
  ({ p with weapon := some new_weapon, slain_monsters := [] }, discard_pile)

/-- `Player.can_use_weapon_on(monster_card)`: `False` without a weapon;
`True` with an empty ladder; otherwise the monster must be strictly weaker
than the last slain monster. -/
def Player.can_use_weapon_on (p : Player) (monster_card : Card) : Bool :=
  match p.weapon with
  | none => false
  | some _ =>
    match p.slain_monsters.getLast? with
    | none => true
    | some last => monster_card.numeric_value < last.numeric_value

/-- `Player.attack(monster_card)`: with a usable weapon, damage is
`max(0, value - weapon.numeric_value())` and the monster is appended to the
ladder; otherwise full barehanded damage.  Health is decremented in both
branches. -/
def Player.attack (p : Player) (monster_card : Card) : Player :=
  let value : Int := monster_card.numeric_value
  match p.weapon with
  | some w =>
    if p.can_use_weapon_on monster_card then
      let damage := max 0 (value - (w.numeric_value : Int))
      { p with slain_monsters := p.slain_monsters ++ [monster_card],
               health := p.health - damage }
    else
      { p with health := p.health - value }
  | none => { p with health := p.health - value }

/-- `Player.use_potion(potion_card, used_already)`: no effect and `False`
when a potion was already used; otherwise heal capped at 20 and return
`True`.  Returns the updated player together with the boolean result. -/
def Player.use_potion (p : Player) (potion_card : Card) (used_already : Bool) :
    Player × Bool :=
  if used_already then (p, false)
  else ({ p with health := min (p.health + (potion_card.numeric_value : Int)) 20 }, true)

/-- Game state: fields of `Game.__init__` (the shuffle of the fresh deck is
left to the injected shuffle function at the call sites that need it). -/
structure Game where
  player : Player
  deck : List Card
  discard_pile : List Card
  last_room_skipped : Bool
  room_carryover : List Card
deriving DecidableEq

/-- `Game.build_deck`: all 52 value×suit combinations (outer loop over suits,
inner over values), filtered to drop every Hearts or Diamonds card whose
value is J, Q, K or Ace. -/
def build_deck : List Card :=
  let suits : List Suit := [.Hearts, .Diamonds, .Spades, .Clubs]
  let values : List Rank :=
    [.Ace, .two, .three, .four, .five, .six, .seven, .eight, .nine, .ten, .J, .Q, .K]
  let deck := suits.flatMap (fun suit => values.map (fun value => ⟨value, suit⟩))
  deck.filter (fun card =>
    !(card.suit == Suit.Hearts && [Rank.J, Rank.Q, Rank.K, Rank.Ace].contains card.value)
    && !(card.suit == Suit.Diamonds && [Rank.J, Rank.Q, Rank.K, Rank.Ace].contains card.value))

/-- The `while len(room) < 4 and self.deck:` loop of `Game.draw_room`,
returning the final room and the remaining deck. -/
def draw_loop (room : List Card) : List Card → List Card × List Card
  | [] => (room, [])
  | c :: rest =>
    if room.length < 4 then draw_loop (room ++ [c]) rest
    else (room, c :: rest)

/-- `Game.draw_room`: the room starts as the carryover (which is cleared),
then cards are drawn from the front of the deck until the room has 4 cards
or the deck is empty.  Returns the updated game and the room. -/
def Game.draw_room (g : Game) : Game × List Card :=
  let r := draw_loop g.room_carryover g.deck
  ({ g with room_carryover := [], deck := r.2 }, r.1)

/-- `Game.skip_room(room)`: rejected (returning `False`, no state change)
when the previous room was skipped; otherwise the room is appended to the
deck, the whole deck is reshuffled (`sh` models `random.shuffle`), and the
skip flag is set. -/
def Game.skip_room (g : Game) (room : List Card) (sh : List Card → List Card) :
    Game × Bool :=
  if g.last_room_skipped then (g, false)
  else ({ g with deck := sh (g.deck ++ room), last_room_skipped := true }, true)

/-- Dispatch on the chosen card's suit — the body of the `for _ in range(3)`
loop of `Game.play_turn` (lines 147–154): Spades/Clubs attack then discard,
Diamonds equip (which discards the old weapon and ladder itself), Hearts
use a potion then discard; the potion flag is reassigned from the call's
return value.  Returns the updated game and the new potion flag. -/
def resolve_card (g : Game) (potion_used : Bool) (card : Card) : Game × Bool :=
  if card.suit = Suit.Spades ∨ card.suit = Suit.Clubs then
    ({ g with player := g.player.attack card,
              discard_pile := g.discard_pile ++ [card] }, potion_used)
  else if card.suit = Suit.Diamonds then
    let r := g.player.equip_weapon card g.discard_pile
    ({ g with player := r.1, discard_pile := r.2 }, potion_used)
  else
    let r := g.player.use_potion card potion_used
    ({ g with player := r.1, discard_pile := g.discard_pile ++ [card] }, r.2)

/-- Result of the three-resolution loop: the player died mid-room, or all
requested resolutions completed, with the game and the remaining room. -/
inductive ActionsResult
  | died (g : Game) (room : List Card)
  | completed (g : Game) (room : List Card)
deriving DecidableEq

/-- The `for _ in range(3)` loop of `Game.play_turn`: each choice is a
0-based index into the remaining room (`none` models a choice the inner
retry loop would reject); the chosen card is removed (`room.pop(choice)`),
resolved by suit, and after each resolution the death check `health <= 0`
may end the turn early. -/
def run_actions : Game → List Card → Bool → List Nat → Option ActionsResult
  | g, room, _, [] => some (.completed g room)
  | g, room, potion_used, choice :: rest =>
    if h : choice < room.length then
      let card := room.get ⟨choice, h⟩
      let room := room.eraseIdx choice
      let r := resolve_card g potion_used card
      if r.1.player.health ≤ 0 then some (.died r.1 room)
      else run_actions r.1 room r.2 rest
    else none

/-- Outcome of one call to `Game.play_turn`: the source returns `False`
after the win print, `False` after the death print, and `True` both after a
successful skip and after a fully resolved room. -/
inductive TurnOutcome
  | gameWon | playerDied | roomSkipped | roomResolved
deriving DecidableEq

/-- The part of `Game.play_turn` after the (possible) skip: reset the skip
flag, run three resolutions with the potion flag starting `False`, and on
completion store the remaining room as the carryover. -/
def resolve_phase (g : Game) (room : List Card) (choices : List Nat) :
    Option (Game × TurnOutcome) :=
  let g := { g with last_room_skipped := false }
  match run_actions g room false choices with
  | none => none
  | some (.died g' _) => some (g', .playerDied)
  | some (.completed g' room') =>
    some ({ g' with room_carryover := room' }, .roomResolved)

/-- `Game.play_turn`: draw the room; fewer than 4 cards wins; otherwise,
when the last room was not skipped and a skip is requested, try
`skip_room`; otherwise (or if the skip is rejected) resolve three cards and
keep the rest as carryover.  `skipRequested` models the `Y` answer and
`choices` the three card inputs; `none` models an input the retry loops
never accept (so the python loop would not terminate). -/
def Game.play_turn (g : Game) (skipRequested : Bool) (choices : List Nat)
    (sh : List Card → List Card) : Option (Game × TurnOutcome) :=
  let d := g.draw_room
  let g := d.1
  let room := d.2
  if room.length < 4 then some (g, .gameWon)
  else if !g.last_room_skipped && skipRequested then
    let s := g.skip_room room sh
    if s.2 then some (s.1, .roomSkipped)
    else resolve_phase g room choices
  else resolve_phase g room choices

/-! Concrete cards and game states used in witnesses and evaluations. -/

/-- The 5 of Diamonds. -/
def cardD5 : Card := ⟨Rank.five, Suit.Diamonds⟩
/-- The 9 of Clubs. -/
def cardC9 : Card := ⟨Rank.nine, Suit.Clubs⟩
/-- The 2 of Hearts. -/
def cardH2 : Card := ⟨Rank.two, Suit.Hearts⟩
/-- The 3 of Hearts. -/
def cardH3 : Card := ⟨Rank.three, Suit.Hearts⟩
/-- The 4 of Hearts. -/
def cardH4 : Card := ⟨Rank.four, Suit.Hearts⟩
/-- The 5 of Hearts. -/
def cardH5 : Card := ⟨Rank.five, Suit.Hearts⟩
/-- The 2 of Spades. -/
def cardS2 : Card := ⟨Rank.two, Suit.Spades⟩

/-- The game the loop body runs in, projected out of an `ActionsResult`. -/
def ActionsResult.game : ActionsResult → Game
  | .died g _ => g
  | .completed g _ => g

/-- Every card value is at least 2 (digits are 2..10, faces 11..14). -/
theorem numeric_value_ge_two (c : Card) : 2 ≤ c.numeric_value := by
  cases h : c.value <;> simp [Card.numeric_value, h]

/-- Characterization of the `while` loop of `draw_room`: it moves the first
`4 - room.length` cards of the deck onto the end of the room. -/
theorem draw_loop_eq (deck room : List Card) :
    draw_loop room deck
      = (room ++ deck.take (4 - room.length), deck.drop (4 - room.length)) := by
  induction deck generalizing room with
  | nil => simp [draw_loop]
  | cons c rest ih =>
    by_cases h : room.length < 4
    · have h4 : 4 - room.length = (4 - (room ++ [c]).length) + 1 := by
        simp only [List.length_append, List.length_singleton]; omega
      rw [draw_loop, if_pos h, ih, h4]
      simp [List.take_succ_cons, List.drop_succ_cons]
    · have h4 : 4 - room.length = 0 := by omega
      rw [draw_loop, if_neg h, h4]
      simp

/-- C8: `build_deck` yields exactly 44 distinct cards, and a card is in the
deck iff it is not a Hearts or Diamonds card of value J, Q, K or Ace. -/
theorem C8_build_deck_44_cards :
    build_deck.length = 44
    ∧ build_deck.Nodup
    ∧ ∀ c : Card, c ∈ build_deck
        ↔ ¬((c.suit = Suit.Hearts ∨ c.suit = Suit.Diamonds)
            ∧ c.value ∈ [Rank.J, Rank.Q, Rank.K, Rank.Ace]) := by
  refine ⟨by decide, by decide, ?_⟩
  decide

/-- C7: using a potion when none has been used this turn sets health to
`min(health + value, 20)`, never exceeds 20, and reports the potion as
consumed; in particular healing a 7 of Hearts from health 15 gives 20. -/
theorem C7_potion_heal_cap (p : Player) (potion : Card) :
    ((p.use_potion potion false).1.health
        = min (p.health + (potion.numeric_value : Int)) 20)
    ∧ ((p.use_potion potion false).1.health ≤ 20)
    ∧ ((p.use_potion potion false).2 = true)
    ∧ (Player.use_potion ⟨15, none, []⟩ ⟨Rank.seven, Suit.Hearts⟩ false).1.health = 20 := by
  refine ⟨rfl, ?_, rfl, by decide⟩
  simp [Player.use_potion]

/-- C10: every card's numeric value is at least 2, and an attack never
increases health, whichever branch (weapon or barehanded) is taken. -/
theorem C10_attack_never_heals :
    (∀ c : Card, 2 ≤ c.numeric_value)
    ∧ ∀ (p : Player) (monster : Card), (p.attack monster).health ≤ p.health := by
  refine ⟨numeric_value_ge_two, ?_⟩
  intro p monster
  unfold Player.attack
  cases hw : p.weapon with
  | none =>
    simp only
    have : (0:Int) ≤ (monster.numeric_value : Int) := Int.natCast_nonneg _
    omega
  | some w =>
    simp only
    split
    · have : (0:Int) ≤ max 0 ((monster.numeric_value : Int) - (w.numeric_value : Int)) :=
        le_max_left 0 _
      simp only
      omega
    · have : (0:Int) ≤ (monster.numeric_value : Int) := Int.natCast_nonneg _
      simp only
      omega

/-- C3: with a weapon of strength W held, the weapon is usable iff the
ladder is empty or the monster is strictly weaker than the ladder's last
entry; a usable-weapon attack deals `max 0 (V - W)` and appends the monster
to the ladder, any other attack deals the full `V` barehanded (no weapon
counts as not usable); health drops by the damage in both branches. -/
theorem C3_ladder_rule_and_attack (p : Player) (monster : Card) :
    (p.weapon = none → p.can_use_weapon_on monster = false)
    ∧ (∀ w, p.weapon = some w →
        (p.can_use_weapon_on monster = true ↔
          (p.slain_monsters = []
           ∨ ∃ last, p.slain_monsters.getLast? = some last
               ∧ monster.numeric_value < last.numeric_value)))
    ∧ (∀ w, p.weapon = some w → p.can_use_weapon_on monster = true →
        p.attack monster
          = { p with
              health := p.health
                - max 0 ((monster.numeric_value : Int) - (w.numeric_value : Int)),
              slain_monsters := p.slain_monsters ++ [monster] })
    ∧ (p.can_use_weapon_on monster = false →
        p.attack monster = { p with health := p.health - (monster.numeric_value : Int) }) := by
  refine ⟨?_, ?_, ?_, ?_⟩
  · intro h; simp [Player.can_use_weapon_on, h]
  · intro w hw
    simp only [Player.can_use_weapon_on, hw]
    cases hl : p.slain_monsters.getLast? with
    | none =>
      simp only [List.getLast?_eq_none_iff] at hl
      simp [hl]
    | some last =>
      have hne : p.slain_monsters ≠ [] := by
        intro he; rw [he] at hl; simp at hl
      constructor
      · intro h
        exact Or.inr ⟨last, rfl, by simpa using h⟩
      · rintro (he | ⟨l', hl', hlt⟩)
        · exact absurd he hne
        · injection hl' with hl'
          subst hl'
          simpa using hlt
  · intro w hw hu
    unfold Player.attack
    rw [hw]
    simp only [hu, if_true]
  · intro hu
    unfold Player.attack
    cases hw : p.weapon with
    | none => simp
    | some w => simp only [hu]; simp

/-- Witness for C3: a player at health 20 holding the 5 of Diamonds with an
empty ladder attacks the 9 of Clubs — usable, damage 4, ladder `[9♣]`. -/
theorem C3_witness :
    (Player.can_use_weapon_on ⟨20, some cardD5, []⟩ cardC9 = true)
    ∧ Player.attack ⟨20, some cardD5, []⟩ cardC9 = ⟨16, some cardD5, [cardC9]⟩ := by
  have h := C3_ladder_rule_and_attack ⟨20, some cardD5, []⟩ cardC9
  have hu : Player.can_use_weapon_on ⟨20, some cardD5, []⟩ cardC9 = true :=
    (h.2.1 cardD5 rfl).mpr (Or.inl rfl)
  refine ⟨hu, ?_⟩
  rw [h.2.2.1 cardD5 rfl hu]
  decide

/-- C6: `equip_weapon` sets the new weapon, clears the ladder, leaves
health alone, never fails, and moves the old weapon (when held) together
with the whole ladder into the discard pile; with no weapon held the
discard pile is unchanged. -/
theorem C6_equip_weapon_frame (p : Player) (nw : Card) (discard : List Card) :
    ((p.equip_weapon nw discard).1.weapon = some nw)
    ∧ ((p.equip_weapon nw discard).1.slain_monsters = [])
    ∧ ((p.equip_weapon nw discard).1.health = p.health)
    ∧ (p.weapon = none → (p.equip_weapon nw discard).2 = discard)
    ∧ (∀ w, p.weapon = some w →
        (p.equip_weapon nw discard).2 = discard ++ (w :: p.slain_monsters)) := by
  refine ⟨rfl, rfl, rfl, ?_, ?_⟩
  · intro h; simp [Player.equip_weapon, h]
  · intro w hw; simp [Player.equip_weapon, hw]

/-- Witness for C6: a player holding the 5 of Diamonds with ladder `[9♣]`
equips the 2 of Spades onto an empty discard pile: the discard pile becomes
`[5♦, 9♣]` and the ladder is cleared. -/
theorem C6_witness :
    (Player.equip_weapon ⟨20, some cardD5, [cardC9]⟩ cardS2 []).2 = [cardD5, cardC9]
    ∧ (Player.equip_weapon ⟨20, some cardD5, [cardC9]⟩ cardS2 []).1.weapon = some cardS2
    ∧ (Player.equip_weapon ⟨20, some cardD5, [cardC9]⟩ cardS2 []).1.slain_monsters = [] := by
  have h := C6_equip_weapon_frame ⟨20, some cardD5, [cardC9]⟩ cardS2 []
  exact ⟨by rw [h.2.2.2.2 cardD5 rfl]; rfl, h.1, h.2.1⟩

/-- Game state before the C1 failing input: the player holds the 5 of
Diamonds with an empty ladder; deck, discard pile and carryover empty. -/
def gameC1 : Game := ⟨⟨20, some cardD5, []⟩, [], [], false, []⟩

/-- C1 fails on the code: when the 9 of Clubs is resolved with a usable
weapon, `attack` appends it to the ladder while `play_turn` also appends it
to the discard pile, so the same card sits in two containers at once and
the union of the containers has a duplicate. -/
theorem C1_card_in_two_containers :
    cardC9 ∈ (resolve_card gameC1 false cardC9).1.player.slain_monsters
    ∧ cardC9 ∈ (resolve_card gameC1 false cardC9).1.discard_pile
    ∧ ¬((resolve_card gameC1 false cardC9).1.player.slain_monsters
        ++ (resolve_card gameC1 false cardC9).1.discard_pile).Nodup := by
  decide

/-- Game state before the C2 failing input: player at health 1, nothing
held, everything else empty. -/
def gameC2 : Game := ⟨⟨1, none, []⟩, [], [], false, []⟩

/-- C2 fails on the code: `use_potion` returns `False` when a potion was
already used and `play_turn` reassigns the turn flag from that return
value, so the flag flips back to `False`; a third Hearts card in the same
turn then heals again.  From health 1, resolving 2♥, 3♥, 4♥ ends at
health 7 (1 + 2 + 0 + 4), while a flag that stayed true would give 3. -/
theorem C2_potion_flag_resets :
    ((Player.use_potion ⟨1, none, []⟩ cardH3 true).2 = false)
    ∧ ((resolve_card gameC2 true cardH3).2 = false)
    ∧ ((run_actions gameC2 [cardH2, cardH3, cardH4, cardS2] false [0, 0, 0]).map
        (fun r => r.game.player.health)) = some 7 := by
  decide

/-- The resolution phase of a turn ends either with the player dead or with
the room resolved — never with the win outcome. -/
theorem resolve_phase_outcome (g : Game) (room : List Card) (choices : List Nat)
    (r : Game × TurnOutcome) (h : resolve_phase g room choices = some r) :
    r.2 = TurnOutcome.playerDied ∨ r.2 = TurnOutcome.roomResolved := by
  simp only [resolve_phase] at h
  split at h
  · exact absurd h (by simp)
  · cases h; exact Or.inl rfl
  · cases h; exact Or.inr rfl

/-- C4: drawing a room yields the carryover (order preserved) followed by
cards from the front of the deck until the room has 4 cards or the deck is
empty (a short room leaves the deck empty), and `play_turn` produces the
win outcome iff the assembled room has fewer than 4 cards. -/
theorem C4_draw_room_and_win (g : Game) (skipRequested : Bool) (choices : List Nat)
    (sh : List Card → List Card) :
    (g.draw_room).2 = g.room_carryover ++ g.deck.take (4 - g.room_carryover.length)
    ∧ (g.draw_room).1.deck = g.deck.drop (4 - g.room_carryover.length)
    ∧ (g.draw_room).1.room_carryover = []
    ∧ ((g.draw_room).2.length < 4 → (g.draw_room).1.deck = [])
    ∧ (g.play_turn skipRequested choices sh = some ((g.draw_room).1, TurnOutcome.gameWon)
        ↔ (g.draw_room).2.length < 4) := by
  have hdr : g.draw_room
      = ({ g with room_carryover := [],
                  deck := g.deck.drop (4 - g.room_carryover.length) },
         g.room_carryover ++ g.deck.take (4 - g.room_carryover.length)) := by
    unfold Game.draw_room
    rw [draw_loop_eq]
  refine ⟨by rw [hdr], by rw [hdr], by rw [hdr], ?_, ?_⟩
  · intro h
    rw [hdr] at h ⊢
    simp only [List.length_append, List.length_take] at h
    simp only
    apply List.drop_eq_nil_of_le
    omega
  · unfold Game.play_turn
    by_cases h : (g.draw_room).2.length < 4
    · simp only [if_pos h]
      constructor
      · intro _; exact h
      · intro _; trivial
    · simp only [if_neg h]
      constructor
      · intro hcontra
        exfalso
        by_cases hs : (!(g.draw_room).1.last_room_skipped && skipRequested) = true
        · rw [if_pos hs] at hcontra
          by_cases hs2 : ((g.draw_room).1.skip_room (g.draw_room).2 sh).2 = true
          · rw [if_pos hs2] at hcontra
            simp at hcontra
          · rw [if_neg hs2] at hcontra
            rcases resolve_phase_outcome _ _ _ _ hcontra with h' | h' <;> simp at h'
        · rw [if_neg hs] at hcontra
          rcases resolve_phase_outcome _ _ _ _ hcontra with h' | h' <;> simp at h'
      · intro hcontra; exact absurd hcontra h

/-- A game whose 3-card deck cannot fill a room: the next turn wins. -/
def gameWin : Game := ⟨Player.init, [cardH2, cardH3, cardH4], [], false, []⟩

/-- Witness for C4: with a 3-card deck and no carryover, the turn ends with
the win outcome and the deck is exhausted. -/
theorem C4_witness :
    gameWin.play_turn false [] id = some ((gameWin.draw_room).1, TurnOutcome.gameWon)
    ∧ (gameWin.draw_room).1.deck = [] := by
  have h := C4_draw_room_and_win gameWin false [] id
  exact ⟨h.2.2.2.2.mpr (by decide), h.2.2.2.1 (by decide)⟩

/-- C5: `skip_room` is rejected, with no state change, iff the previous
room was skipped; otherwise it succeeds, sets the skip flag, and the new
deck is a permutation of the old deck plus all the room's cards, leaving
player, discard pile and carryover untouched. -/
theorem C5_skip_room_spec (g : Game) (room : List Card) (sh : List Card → List Card)
    (hsh : ∀ l : List Card, (sh l).Perm l) :
    (g.last_room_skipped = true → g.skip_room room sh = (g, false))
    ∧ (g.last_room_skipped = false →
        (g.skip_room room sh).2 = true
        ∧ (g.skip_room room sh).1.last_room_skipped = true
        ∧ ((g.skip_room room sh).1.deck).Perm (g.deck ++ room)
        ∧ (g.skip_room room sh).1.player = g.player
        ∧ (g.skip_room room sh).1.discard_pile = g.discard_pile
        ∧ (g.skip_room room sh).1.room_carryover = g.room_carryover) := by
  constructor
  · intro h; simp [Game.skip_room, h]
  · intro h
    refine ⟨?_, ?_, ?_, ?_, ?_, ?_⟩ <;>
      simp only [Game.skip_room, h, Bool.false_eq_true, if_false]
    exact hsh _

/-- A game that may skip (previous room was not a skip). -/
def gameSkip : Game := ⟨Player.init, [cardH2], [], false, [cardH3]⟩

/-- Witness for C5: skipping a one-card room with the identity shuffle
succeeds, sets the flag, and returns the room's card into the deck. -/
theorem C5_witness :
    (gameSkip.skip_room [cardC9] id).2 = true
    ∧ (gameSkip.skip_room [cardC9] id).1.last_room_skipped = true
    ∧ ((gameSkip.skip_room [cardC9] id).1.deck).Perm (gameSkip.deck ++ [cardC9]) := by
  have h := (C5_skip_room_spec gameSkip [cardC9] id (fun l => List.Perm.refl l)).2 rfl
  exact ⟨h.1, h.2.1, h.2.2.1⟩

/-- Running the resolution loop to completion removes exactly one card per
choice, and the remaining room is a sublist of the original room. -/
theorem run_actions_completed (choices : List Nat) :
    ∀ (g : Game) (room : List Card) (pu : Bool) (g' : Game) (room' : List Card),
      run_actions g room pu choices = some (.completed g' room') →
      room'.length + choices.length = room.length ∧ room'.Sublist room := by
  induction choices with
  | nil =>
    intro g room pu g' room' h
    simp only [run_actions, Option.some.injEq] at h
    cases h
    exact ⟨by simp, List.Sublist.refl _⟩
  | cons c rest ih =>
    intro g room pu g' room' h
    simp only [run_actions] at h
    split at h
    · rename_i hc
      split at h
      · exact absurd h (by simp)
      · have h2 := ih _ _ _ _ _ h
        have hlen : (room.eraseIdx c).length = room.length - 1 := by
          rw [List.length_eraseIdx]
          simp [hc]
        refine ⟨?_, (h2.2).trans (List.eraseIdx_sublist room c)⟩
        have := h2.1
        simp only [List.length_cons] at this ⊢
        omega
    · exact absurd h (by simp)

/-- C9: a turn that draws a 4-card room, is not skipped, and resolves all
3 choices without ending the game leaves exactly one unchosen room card as
the carryover, and that card is the first card of the next turn's room. -/
theorem C9_carryover_to_next_room (g : Game) (choices : List Nat)
    (sh : List Card → List Card) (g' : Game)
    (hroom : (g.draw_room).2.length = 4)
    (hc : choices.length = 3)
    (h : g.play_turn false choices sh = some (g', TurnOutcome.roomResolved)) :
    g'.room_carryover.length = 1
    ∧ g'.room_carryover.Sublist (g.draw_room).2
    ∧ (g'.draw_room).2.head? = g'.room_carryover.head? := by
  simp only [Game.play_turn] at h
  rw [if_neg (by omega)] at h
  simp only [Bool.and_false, Bool.false_eq_true, if_false] at h
  simp only [resolve_phase] at h
  split at h
  · exact absurd h (by simp)
  · simp at h
  · rename_i g'' room'' heq
    simp only [Option.some.injEq, Prod.mk.injEq] at h
    obtain ⟨hg', -⟩ := h
    subst hg'
    obtain ⟨hlen, hsub⟩ := run_actions_completed choices _ _ _ _ _ heq
    have hl1 : room''.length = 1 := by rw [hc] at hlen; omega
    obtain ⟨a, ha⟩ := List.length_eq_one.mp hl1
    subst ha
    refine ⟨by simp, by simpa using hsub, ?_⟩
    unfold Game.draw_room
    rw [draw_loop_eq]
    simp

/-- A game about to resolve a room of four Hearts cards at full health. -/
def gameResolve : Game := ⟨Player.init, [cardH2, cardH3, cardH4, cardH5], [], false, []⟩

/-- The state `gameResolve` reaches after resolving the first card three
times: 2♥, 3♥, 4♥ consumed, 5♥ left as the carryover. -/
def gameResolveAfter : Game := ⟨⟨20, none, []⟩, [], [cardH2, cardH3, cardH4], false, [cardH5]⟩

/-- Witness for C9: resolving the room `[2♥,3♥,4♥,5♥]` with choices 0,0,0
leaves the 5♥ as the single carryover card, which heads the next room. -/
theorem C9_witness :
    gameResolveAfter.room_carryover.length = 1
    ∧ gameResolveAfter.room_carryover.Sublist (gameResolve.draw_room).2
    ∧ (gameResolveAfter.draw_room).2.head? = gameResolveAfter.room_carryover.head? :=
  C9_carryover_to_next_room gameResolve [0, 0, 0] id gameResolveAfter
    (by decide) (by decide) (by decide)
